import Mathlib

/-!
Verification of the SAC (Soft Actor-Critic) core from
FetchPickPlaceSAC/RLLib/Agents/SAC/Core.py: the replay ring buffer,
the shape and parameter utilities, the MLP builder, the squashed
Gaussian actor's forward pass, and the actor-critic ensemble's
target-network freezing.

Numeric tensor code is embedded over exact reals (lists of reals for
1-D tensors, lists of rows for 2-D tensors); random draws are passed
in explicitly (a noise field for Gaussian sampling, a raw-integer
stream for the numpy randint call), so every operation is a pure
function of its inputs.
-/

namespace SAC

/-! ## Replay buffer (class SACReplayBuffer)

numpy buffers allocated by np.zeros are modelled as total arrays
(functions out of Nat) initialised to a constant fill value; only
indices below max_size are ever read or written by the code. -/

/-- One transition tuple as passed to SACReplayBuffer.store.
Rewards and done flags are float32 scalars in the source, embedded as
rationals so that concrete runs remain decidable. -/
structure Transition (Obs Act : Type) where
  obs : Obs
  act : Act
  rew : ℚ
  next_obs : Obs
  done : ℚ
deriving DecidableEq

/-- State of SACReplayBuffer: five parallel arrays, write cursor ptr,
fill count size, capacity max_size. -/
structure SACReplayBuffer (Obs Act : Type) where
  obs_buf : Nat → Obs
  obs2_buf : Nat → Obs
  act_buf : Nat → Act
  rew_buf : Nat → ℚ
  done_buf : Nat → ℚ
  ptr : Nat
  size : Nat
  max_size : Nat

/-- SACReplayBuffer.__init__: arrays zero-filled (the zero of each
element type is passed in, mirroring np.zeros), ptr = 0, size = 0,
max_size = size argument. -/
def SACReplayBuffer.init (zo : Obs) (za : Act) (size : Nat) : SACReplayBuffer Obs Act :=
  { obs_buf := fun _ => zo
    obs2_buf := fun _ => zo
    act_buf := fun _ => za
    rew_buf := fun _ => 0
    done_buf := fun _ => 0
    ptr := 0
    size := 0
    max_size := size }

/-- SACReplayBuffer.store: write the five components at index ptr,
advance ptr = (ptr+1) % max_size, set size = min(size+1, max_size). -/
def SACReplayBuffer.store (b : SACReplayBuffer Obs Act) (t : Transition Obs Act) :
    SACReplayBuffer Obs Act :=
  { b with
    obs_buf := Function.update b.obs_buf b.ptr t.obs
    obs2_buf := Function.update b.obs2_buf b.ptr t.next_obs
    act_buf := Function.update b.act_buf b.ptr t.act
    rew_buf := Function.update b.rew_buf b.ptr t.rew
    done_buf := Function.update b.done_buf b.ptr t.done
    ptr := (b.ptr + 1) % b.max_size
    size := min (b.size + 1) b.max_size }

/-- Repeated store calls, oldest first. -/
def SACReplayBuffer.storeMany (b : SACReplayBuffer Obs Act) (ts : List (Transition Obs Act)) :
    SACReplayBuffer Obs Act :=
  ts.foldl SACReplayBuffer.store b

/-- Buffer obtained from a fresh buffer of capacity ms after storing the
list ts of transitions in order. -/
def bufferAfter (zo : Obs) (za : Act) (ms : Nat) (ts : List (Transition Obs Act)) :
    SACReplayBuffer Obs Act :=
  (SACReplayBuffer.init zo za ms).storeMany ts

theorem storeMany_append (b : SACReplayBuffer Obs Act) (ts : List (Transition Obs Act))
    (t : Transition Obs Act) :
    b.storeMany (ts ++ [t]) = (b.storeMany ts).store t := by
  simp [SACReplayBuffer.storeMany, List.foldl_append]

theorem bufferAfter_append (zo : Obs) (za : Act) (ms : Nat) (ts : List (Transition Obs Act))
    (t : Transition Obs Act) :
    bufferAfter zo za ms (ts ++ [t]) = (bufferAfter zo za ms ts).store t :=
  storeMany_append _ ts t

theorem max_size_bufferAfter (zo : Obs) (za : Act) (ms : Nat)
    (ts : List (Transition Obs Act)) :
    (bufferAfter zo za ms ts).max_size = ms := by
  induction ts using List.reverseRecOn with
  | nil => rfl
  | append_singleton ts t ih =>
      rw [bufferAfter, storeMany_append]
      simpa [SACReplayBuffer.store] using ih

theorem size_bufferAfter (zo : Obs) (za : Act) (ms : Nat)
    (ts : List (Transition Obs Act)) :
    (bufferAfter zo za ms ts).size = min ts.length ms := by
  induction ts using List.reverseRecOn with
  | nil => simp [bufferAfter, SACReplayBuffer.storeMany, SACReplayBuffer.init]
  | append_singleton ts t ih =>
      rw [bufferAfter, storeMany_append]
      have hmax := max_size_bufferAfter zo za ms ts
      simp only [SACReplayBuffer.store, hmax]
      rw [show (SACReplayBuffer.init zo za ms).storeMany ts = bufferAfter zo za ms ts from rfl,
        ih]
      simp [List.length_append]
      omega

theorem ptr_bufferAfter (zo : Obs) (za : Act) (ms : Nat) (hms : 0 < ms)
    (ts : List (Transition Obs Act)) :
    (bufferAfter zo za ms ts).ptr = ts.length % ms := by
  induction ts using List.reverseRecOn with
  | nil => simp [bufferAfter, SACReplayBuffer.storeMany, SACReplayBuffer.init, Nat.mod_eq_of_lt hms]
  | append_singleton ts t ih =>
      rw [bufferAfter, storeMany_append]
      show ((bufferAfter zo za ms ts).ptr + 1) % (bufferAfter zo za ms ts).max_size
        = (ts ++ [t]).length % ms
      rw [max_size_bufferAfter, ih, Nat.mod_add_mod]
      simp [List.length_append]

/-- Two distinct store indices less than max_size apart land in distinct slots. -/
theorem slot_ne_of_window (k L ms : Nat) (hlt : k < L) (hwin : L < k + ms) :
    k % ms ≠ L % ms := by
  intro h
  have hdvd : ms ∣ L - k := (Nat.modEq_iff_dvd' (Nat.le_of_lt hlt)).mp h
  have hpos : 0 < L - k := by omega
  have := Nat.le_of_dvd hpos hdvd
  omega

/-- After storing the list ts, every transition among the most recent
max_size ones still sits at its ring slot (store index mod max_size). -/
theorem content_bufferAfter (zo : Obs) (za : Act) (ms : Nat) (hms : 0 < ms)
    (ts : List (Transition Obs Act)) :
    ∀ k, ∀ hk : k < ts.length, ts.length ≤ k + ms →
      (bufferAfter zo za ms ts).obs_buf (k % ms) = (ts.get ⟨k, hk⟩).obs ∧
      (bufferAfter zo za ms ts).obs2_buf (k % ms) = (ts.get ⟨k, hk⟩).next_obs ∧
      (bufferAfter zo za ms ts).act_buf (k % ms) = (ts.get ⟨k, hk⟩).act ∧
      (bufferAfter zo za ms ts).rew_buf (k % ms) = (ts.get ⟨k, hk⟩).rew ∧
      (bufferAfter zo za ms ts).done_buf (k % ms) = (ts.get ⟨k, hk⟩).done := by
  induction ts using List.reverseRecOn with
  | nil =>
      intro k hk
      exact absurd hk (by simp)
  | append_singleton ts t ih =>
      intro k hk hwin
      rw [bufferAfter_append]
      have hptr : (bufferAfter zo za ms ts).ptr = ts.length % ms :=
        ptr_bufferAfter zo za ms hms ts
      have hlen : (ts ++ [t]).length = ts.length + 1 := by simp
      rcases Nat.lt_or_ge k ts.length with hklt | hkge
      · have hne : k % ms ≠ (bufferAfter zo za ms ts).ptr := by
          rw [hptr]
          exact slot_ne_of_window k ts.length ms hklt (by omega)
        have hget : (ts ++ [t]).get ⟨k, hk⟩ = ts.get ⟨k, hklt⟩ := by
          simp [List.getElem_append, hklt]
        obtain ⟨h1, h2, h3, h4, h5⟩ := ih k hklt (by omega)
        refine ⟨?_, ?_, ?_, ?_, ?_⟩ <;>
          simp [SACReplayBuffer.store, Function.update_noteq hne, List.getElem_append, hklt,
            h1, h2, h3, h4, h5]
      · have hk_eq : k = ts.length := by omega
        subst hk_eq
        have hget : (ts ++ [t]).get ⟨ts.length, hk⟩ = t := by simp
        refine ⟨?_, ?_, ?_, ?_, ?_⟩ <;>
          simp [SACReplayBuffer.store, hptr, hget, Function.update_same]

/-- Every ring slot is the slot of one of the last max_size store indices
once at least max_size stores happened. -/
theorem slot_surjective (ms N j : Nat) (hms : 0 < ms) (hj : j < ms) (hN : ms ≤ N) :
    ∃ k, k < N ∧ N ≤ k + ms ∧ k % ms = j := by
  obtain ⟨m, hm1, hm2, hmod⟩ :
      ∃ m, m ≤ N - 1 - j ∧ N - 1 - j < m + ms ∧ (j + m) % ms = j := by
    have e3 : (j + ms * ((N - 1 - j) / ms)) % ms = j := by
      rw [Nat.add_mul_mod_self_left, Nat.mod_eq_of_lt hj]
    refine ⟨ms * ((N - 1 - j) / ms), ?_, ?_, e3⟩ <;>
    · have e1 : (N - 1 - j) % ms + ms * ((N - 1 - j) / ms) = N - 1 - j :=
        Nat.mod_add_div _ _
      have e2 : (N - 1 - j) % ms < ms := Nat.mod_lt _ hms
      generalize hA : (N - 1 - j) % ms = A at e1 e2
      generalize hB : ms * ((N - 1 - j) / ms) = B at e1 ⊢
      omega
  exact ⟨j + m, by omega, by omega, hmod⟩

/-- Claim C1: store writes the five components at index ptr, advances
ptr = (ptr+1) mod max_size and sets size = min(size+1, max_size); from a
fresh buffer of capacity max_size, after storing N transitions size is
min N max_size, and once N exceeds max_size the arrays hold exactly the
most recent max_size transitions, each at its ring slot (ring overwrite
of the oldest). -/
theorem c1_replay_buffer_ring (Obs Act : Type) (zo : Obs) (za : Act) (ms : Nat)
    (hms : 0 < ms) (ts : List (Transition Obs Act)) :
    (∀ (b : SACReplayBuffer Obs Act) (t : Transition Obs Act),
        (b.store t).obs_buf b.ptr = t.obs ∧
        (b.store t).obs2_buf b.ptr = t.next_obs ∧
        (b.store t).act_buf b.ptr = t.act ∧
        (b.store t).rew_buf b.ptr = t.rew ∧
        (b.store t).done_buf b.ptr = t.done ∧
        (b.store t).ptr = (b.ptr + 1) % b.max_size ∧
        (b.store t).size = min (b.size + 1) b.max_size) ∧
    (bufferAfter zo za ms ts).size = min ts.length ms ∧
    (bufferAfter zo za ms ts).ptr = ts.length % ms ∧
    (∀ k, ∀ hk : k < ts.length, ts.length ≤ k + ms →
        (bufferAfter zo za ms ts).obs_buf (k % ms) = (ts.get ⟨k, hk⟩).obs ∧
        (bufferAfter zo za ms ts).obs2_buf (k % ms) = (ts.get ⟨k, hk⟩).next_obs ∧
        (bufferAfter zo za ms ts).act_buf (k % ms) = (ts.get ⟨k, hk⟩).act ∧
        (bufferAfter zo za ms ts).rew_buf (k % ms) = (ts.get ⟨k, hk⟩).rew ∧
        (bufferAfter zo za ms ts).done_buf (k % ms) = (ts.get ⟨k, hk⟩).done) ∧
    (∀ j, j < ms → ms ≤ ts.length →
        ∃ k, k < ts.length ∧ ts.length ≤ k + ms ∧ k % ms = j) := by
  refine ⟨?_, size_bufferAfter zo za ms ts, ptr_bufferAfter zo za ms hms ts,
    content_bufferAfter zo za ms hms ts, ?_⟩
  · intro b t
    refine ⟨?_, ?_, ?_, ?_, ?_, rfl, rfl⟩ <;>
      simp [SACReplayBuffer.store, Function.update_same]
  · intro j hj hN
    exact slot_surjective ms ts.length j hms hj hN

/-- Concrete run for the C1 witness: five transitions with distinct
markers pushed through a buffer of capacity three. -/
def c1ts : List (Transition ℕ ℕ) :=
  [⟨1, 1, 1, 1, 1⟩, ⟨2, 2, 2, 2, 2⟩, ⟨3, 3, 3, 3, 3⟩, ⟨4, 4, 4, 4, 4⟩, ⟨5, 5, 5, 5, 5⟩]

theorem c1_replay_buffer_ring_witness :
    0 < 3 ∧ (3 : Nat) < c1ts.length ∧ c1ts.length ≤ 3 + 3 ∧
    (bufferAfter (0 : ℕ) (0 : ℕ) 3 c1ts).obs_buf (3 % 3) = (c1ts.get ⟨3, by decide⟩).obs := by
  refine ⟨by decide, by decide, by decide, ?_⟩
  exact ((c1_replay_buffer_ring ℕ ℕ 0 0 3 (by decide) c1ts).2.2.2.1 3 (by decide)
    (by decide)).1

/-! ## Uniform minibatch sampling (SACReplayBuffer.sample_batch)

np.random.randint(0, size, size=batch_size) is modelled with an
explicit raw-draw stream g: draw i is g i reduced modulo the range
width, so every index is uniform over the half-open range exactly when
the raw draws are; numpy raises ValueError when low >= high, which is
the only failure path. -/

/-- Errors a sample_batch call can signal. The code only ever produces
valueError (numpy refusing an empty randint range); emptyBufferError is
the explicit guard the spec asks for and is present here only so that
the two failure modes can be told apart. -/
inductive SampleError where
  | valueError
  | emptyBufferError
deriving DecidableEq

/-- np.random.randint(low, high, size=k) with an explicit raw-draw
stream: fails with ValueError when low >= high, otherwise returns k
draws in [low, high). -/
def randint (lo hi k : Nat) (g : Nat → Nat) : Except SampleError (List Nat) :=
  if lo < hi then Except.ok ((List.range k).map (fun i => lo + g i % (hi - lo)))
  else Except.error SampleError.valueError

/-- The mapping returned by sample_batch: exactly the five keys
obs, obs2, act, rew, done, each a batch of gathered rows. -/
structure SampleBatch (Obs Act : Type) where
  obs : List Obs
  obs2 : List Obs
  act : List Act
  rew : List ℚ
  done : List ℚ
deriving DecidableEq

/-- SACReplayBuffer.sample_batch: draw batch_size indices uniformly
from [0, size) with replacement and gather the rows of the five
parallel arrays at those indices. The tensors are float32 in the
source and the gathered values are returned unchanged. -/
def SACReplayBuffer.sample_batch (b : SACReplayBuffer Obs Act) (batch_size : Nat)
    (g : Nat → Nat) : Except SampleError (SampleBatch Obs Act) :=
  match randint 0 b.size batch_size g with
  | Except.error e => Except.error e
  | Except.ok indexes =>
      Except.ok
        { obs := indexes.map b.obs_buf
          obs2 := indexes.map b.obs2_buf
          act := indexes.map b.act_buf
          rew := indexes.map b.rew_buf
          done := indexes.map b.done_buf }

/-- Claim C5: once size >= 1, sample_batch k draws k indices uniformly
(with replacement) from [0, size), every index is below size, and the
returned mapping has exactly the keys obs, obs2, act, rew, done, each
holding the gathered rows with leading dimension k. -/
theorem c5_sample_batch_gather (Obs Act : Type) (b : SACReplayBuffer Obs Act)
    (k : Nat) (g : Nat → Nat) (hsize : 1 ≤ b.size) (hk : 1 ≤ k) :
    ∃ indexes : List Nat,
      indexes = (List.range k).map (fun i => g i % b.size) ∧
      indexes.length = k ∧
      (∀ i ∈ indexes, i < b.size) ∧
      b.sample_batch k g =
        Except.ok
          { obs := indexes.map b.obs_buf
            obs2 := indexes.map b.obs2_buf
            act := indexes.map b.act_buf
            rew := indexes.map b.rew_buf
            done := indexes.map b.done_buf } ∧
      (indexes.map b.obs_buf).length = k ∧
      (indexes.map b.obs2_buf).length = k ∧
      (indexes.map b.act_buf).length = k ∧
      (indexes.map b.rew_buf).length = k ∧
      (indexes.map b.done_buf).length = k := by
  refine ⟨(List.range k).map (fun i => g i % b.size), rfl, by simp, ?_, ?_, by simp,
    by simp, by simp, by simp, by simp⟩
  · intro i hi
    simp only [List.mem_map, List.mem_range] at hi
    obtain ⟨j, _, rfl⟩ := hi
    exact Nat.mod_lt _ (by omega)
  · simp [SACReplayBuffer.sample_batch, randint, Nat.lt_of_lt_of_le Nat.zero_lt_one hsize]

/-- One stored transition for the C4 and C5 witnesses. -/
def c5buf : SACReplayBuffer ℕ ℕ :=
  (SACReplayBuffer.init 0 0 3).store ⟨7, 8, 9, 10, 1⟩

theorem c5_sample_batch_gather_witness :
    1 ≤ c5buf.size ∧ 1 ≤ 2 ∧
    (∃ indexes : List Nat,
      indexes = (List.range 2).map (fun i => (fun _ => 0) i % c5buf.size) ∧
      indexes.length = 2 ∧
      (∀ i ∈ indexes, i < c5buf.size) ∧
      c5buf.sample_batch 2 (fun _ => 0) =
        Except.ok
          { obs := indexes.map c5buf.obs_buf
            obs2 := indexes.map c5buf.obs2_buf
            act := indexes.map c5buf.act_buf
            rew := indexes.map c5buf.rew_buf
            done := indexes.map c5buf.done_buf } ∧
      (indexes.map c5buf.obs_buf).length = 2 ∧
      (indexes.map c5buf.obs2_buf).length = 2 ∧
      (indexes.map c5buf.act_buf).length = 2 ∧
      (indexes.map c5buf.rew_buf).length = 2 ∧
      (indexes.map c5buf.done_buf).length = 2) :=
  ⟨by decide, by decide, c5_sample_batch_gather ℕ ℕ c5buf 2 (fun _ => 0) (by decide) (by decide)⟩

/-- Claim C4, counterexample part: on a fresh (empty) buffer the code
fails with numpy's ValueError from the degenerate randint range, which
is not the explicit EmptyBufferError the claim requires. -/
theorem c4_counterexample :
    (SACReplayBuffer.init (0 : ℕ) (0 : ℕ) 3).sample_batch 32 (fun _ => 0) =
      Except.error SampleError.valueError ∧
    SampleError.valueError ≠ SampleError.emptyBufferError := by
  exact ⟨rfl, by decide⟩

/-- Claim C4 (amended): calling sample_batch with size == 0 fails -- the
degenerate random-index range makes numpy raise ValueError, with no
explicit EmptyBufferError guard in the code -- and the buffer state is
unchanged by the failed call (sample_batch never writes the buffer,
being a pure read of it). -/
theorem c4_empty_sample_fails (Obs Act : Type) (b : SACReplayBuffer Obs Act)
    (k : Nat) (g : Nat → Nat) (hempty : b.size = 0) :
    b.sample_batch k g = Except.error SampleError.valueError := by
  simp [SACReplayBuffer.sample_batch, randint, hempty]

theorem c4_empty_sample_fails_witness :
    (SACReplayBuffer.init (0 : ℕ) (0 : ℕ) 3).size = 0 ∧
    (SACReplayBuffer.init (0 : ℕ) (0 : ℕ) 3).sample_batch 32 (fun _ => 0) =
      Except.error SampleError.valueError :=
  ⟨rfl, c4_empty_sample_fails ℕ ℕ (SACReplayBuffer.init 0 0 3) 32 (fun _ => 0) rfl⟩

/-! ## combined_shape -/

/-- The possible values of the shape argument of combined_shape other
than None: a value np.isscalar accepts, or a tuple of dimensions. -/
inductive PyShape where
  | scalarShape (n : Nat)
  | tupleShape (dims : List Nat)
deriving DecidableEq

/-- combined_shape(length, shape=None): (length,) when shape is None,
(length, shape) when np.isscalar(shape), else (length, *shape). -/
def combined_shape (length : Nat) (shape : Option PyShape := none) : List Nat :=
  match shape with
  | none => [length]
  | some (PyShape.scalarShape n) => [length, n]
  | some (PyShape.tupleShape dims) => length :: dims

/-- Modelled from the claim wording of C6: the result is (length,) when
shape is absent or scalar-compatible, and (length, *shape) otherwise. -/
def combined_shape_claim (length : Nat) (shape : Option PyShape := none) : List Nat :=
  match shape with
  | none => [length]
  | some (PyShape.scalarShape _) => [length]
  | some (PyShape.tupleShape dims) => length :: dims

/-- Claim C6 is false on scalar shapes: combined_shape(10, 7) is the
pair (10, 7), not the one-element tuple (10,) that the claim assigns to
the scalar-compatible case. -/
theorem c6_counterexample :
    combined_shape 10 (some (PyShape.scalarShape 7)) = [10, 7] ∧
    combined_shape_claim 10 (some (PyShape.scalarShape 7)) = [10] ∧
    combined_shape 10 (some (PyShape.scalarShape 7)) ≠
      combined_shape_claim 10 (some (PyShape.scalarShape 7)) := by
  exact ⟨rfl, rfl, by decide⟩

/-- Claim C6 (amended): combined_shape returns (length,) when shape is
absent, (length, shape) when shape is a scalar, and (length, *shape)
when shape is a tuple. -/
theorem c6_combined_shape (length : Nat) :
    combined_shape length none = [length] ∧
    (∀ n, combined_shape length (some (PyShape.scalarShape n)) = [length, n]) ∧
    (∀ dims, combined_shape length (some (PyShape.tupleShape dims)) = length :: dims) :=
  ⟨rfl, fun _ => rfl, fun _ => rfl⟩

/-! ## mlp builder

nn.Sequential contents are modelled as the list of layers the Python
loop appends: a linear layer is recorded with its (input, output)
widths, an activation layer with the activation object it instantiates
(activation classes carry no tensor data, so an abstract marker type
stands for them). -/

inductive MLPLayer (α : Type) where
  | linear (din dout : Nat)
  | activation (a : α)
deriving DecidableEq

def MLPLayer.isLinear : MLPLayer α → Bool
  | MLPLayer.linear _ _ => true
  | MLPLayer.activation _ => false

/-- mlp(sizes, activation, output_activation=nn.Identity): for each j
below len(sizes)-1 append Linear(sizes[j], sizes[j+1]) followed by
activation() for all but the last step and output_activation() for the
last. -/
def mlp (sizes : List Nat) (activation output_activation : α) : List (MLPLayer α) :=
  (List.range (sizes.length - 1)).foldl
    (fun layers j =>
      layers ++ [MLPLayer.linear (sizes.getD j 0) (sizes.getD (j + 1) 0),
        MLPLayer.activation (if j < sizes.length - 2 then activation else output_activation)])
    []

/-- A list built by appending the two-element block [A j, B j] for each
j below k, the shape of the mlp builder loop. -/
def blocksUpTo (A B : Nat → β) (k : Nat) : List β :=
  (List.range k).foldl (fun acc j => acc ++ [A j, B j]) []

theorem blocksUpTo_succ (A B : Nat → β) (k : Nat) :
    blocksUpTo A B (k + 1) = blocksUpTo A B k ++ [A k, B k] := by
  unfold blocksUpTo
  rw [List.range_succ, List.foldl_append]
  rfl

theorem blocksUpTo_length (A B : Nat → β) (k : Nat) :
    (blocksUpTo A B k).length = 2 * k := by
  induction k with
  | zero => rfl
  | succ k ih => rw [blocksUpTo_succ]; simp [ih]; omega

theorem blocksUpTo_getD (A B : Nat → β) (d : β) (k : Nat) :
    ∀ j, j < k →
      (blocksUpTo A B k).getD (2 * j) d = A j ∧
      (blocksUpTo A B k).getD (2 * j + 1) d = B j := by
  induction k with
  | zero => intro j hj; omega
  | succ k ih =>
      intro j hj
      rw [blocksUpTo_succ]
      rcases Nat.lt_or_ge j k with h | h
      · have hlen1 : 2 * j < (blocksUpTo A B k).length := by rw [blocksUpTo_length]; omega
        have hlen2 : 2 * j + 1 < (blocksUpTo A B k).length := by rw [blocksUpTo_length]; omega
        obtain ⟨g1, g2⟩ := ih j h
        exact ⟨by rw [List.getD_append _ _ _ _ hlen1]; exact g1,
          by rw [List.getD_append _ _ _ _ hlen2]; exact g2⟩
      · have hj_eq : j = k := by omega
        subst hj_eq
        have hlen : (blocksUpTo A B j).length = 2 * j := blocksUpTo_length A B j
        constructor
        · rw [List.getD_append_right _ _ _ _ (by omega), hlen]
          simp
        · rw [List.getD_append_right _ _ _ _ (by omega), hlen]
          simp

theorem blocksUpTo_countP (A B : Nat → β) (p : β → Bool) (hA : ∀ j, p (A j) = true)
    (hB : ∀ j, p (B j) = false) (k : Nat) : (blocksUpTo A B k).countP p = k := by
  induction k with
  | zero => rfl
  | succ k ih => rw [blocksUpTo_succ, List.countP_append, ih]; simp [List.countP_cons, hA, hB]

theorem mlp_eq_blocksUpTo (sizes : List Nat) (activation output_activation : α) :
    mlp sizes activation output_activation =
      blocksUpTo (fun j => MLPLayer.linear (sizes.getD j 0) (sizes.getD (j + 1) 0))
        (fun j => MLPLayer.activation
          (if j < sizes.length - 2 then activation else output_activation))
        (sizes.length - 1) :=
  rfl

/-- Claim C7: for sizes of length n >= 2, the built network has exactly
n-1 linear layers, the j-th mapping sizes[j] to sizes[j+1]; each linear
layer but the last is followed by the activation and the last by the
output activation (the network alternates layer, activation, layer,
activation, ...). -/
theorem c7_mlp_structure (α : Type) (activation output_activation : α) (sizes : List Nat)
    (hlen : 2 ≤ sizes.length) :
    ((mlp sizes activation output_activation).countP MLPLayer.isLinear = sizes.length - 1) ∧
    ((mlp sizes activation output_activation).length = 2 * (sizes.length - 1)) ∧
    (∀ j, j < sizes.length - 1 →
      (mlp sizes activation output_activation).getD (2 * j) (MLPLayer.activation activation) =
        MLPLayer.linear (sizes.getD j 0) (sizes.getD (j + 1) 0) ∧
      (mlp sizes activation output_activation).getD (2 * j + 1)
          (MLPLayer.activation activation) =
        MLPLayer.activation
          (if j < sizes.length - 2 then activation else output_activation)) := by
  rw [mlp_eq_blocksUpTo]
  exact ⟨blocksUpTo_countP _ _ _ (fun _ => rfl) (fun _ => rfl) _,
    blocksUpTo_length _ _ _, blocksUpTo_getD _ _ _ _⟩

theorem c7_mlp_structure_witness :
    2 ≤ [4, 8, 2].length ∧ (1 : Nat) < [4, 8, 2].length - 1 ∧
    (mlp [4, 8, 2] (0 : Nat) 1).countP MLPLayer.isLinear = [4, 8, 2].length - 1 ∧
    (mlp [4, 8, 2] (0 : Nat) 1).getD (2 * 1) (MLPLayer.activation 0) = MLPLayer.linear 8 2 := by
  refine ⟨by decide, by decide, ?_, ?_⟩
  · exact (c7_mlp_structure Nat 0 1 [4, 8, 2] (by decide)).1
  · exact ((c7_mlp_structure Nat 0 1 [4, 8, 2] (by decide)).2.2 1 (by decide)).1

/-! ## Parameters, freezing, and the actor-critic ensemble

A torch module is reduced to the list of parameter tensors its
parameters() iterator yields, each carrying its shape and its
requires_grad flag; nn.Linear creates weight (dout, din) and bias
(dout,) parameters, both trainable by default, and activation modules
hold no parameters. -/

structure Param where
  shape : List Nat
  requires_grad : Bool
deriving DecidableEq

structure NNModule where
  params : List Param
deriving DecidableEq

/-- Parameters of nn.Linear(din, dout). -/
def nnLinearParams (din dout : Nat) : List Param :=
  [{ shape := [dout, din], requires_grad := true },
   { shape := [dout], requires_grad := true }]

def MLPLayer.paramsOf : MLPLayer α → List Param
  | MLPLayer.linear din dout => nnLinearParams din dout
  | MLPLayer.activation _ => []

/-- Parameters of the nn.Sequential built by mlp, in layer order. -/
def mlpParams (layers : List (MLPLayer α)) : List Param :=
  (layers.map MLPLayer.paramsOf).flatten

/-- freeze_thaw_parameters(module, freeze=True): set requires_grad of
every parameter to False when freezing, to True when thawing. -/
def freeze_thaw_parameters (m : NNModule) (freeze : Bool := true) : NNModule :=
  if freeze then { params := m.params.map (fun p => { p with requires_grad := false }) }
  else { params := m.params.map (fun p => { p with requires_grad := true }) }

/-- Parameters of SquashedGaussianMLPActor: the trunk
mlp([obs_dim] + hidden_sizes) and the mu and log_std heads, each
nn.Linear(hidden_sizes[-1], act_dim). -/
def actorParams (obs_dim act_dim : Nat) (hidden_sizes : List Nat) : NNModule :=
  { params :=
      mlpParams (mlp (obs_dim :: hidden_sizes) () ()) ++
      nnLinearParams (hidden_sizes.getLastD 0) act_dim ++
      nnLinearParams (hidden_sizes.getLastD 0) act_dim }

/-- Parameters of MLPQFunction: mlp([obs_dim + act_dim] + hidden_sizes + [1]). -/
def qFunctionParams (obs_dim act_dim : Nat) (hidden_sizes : List Nat) : NNModule :=
  { params := mlpParams (mlp ((obs_dim + act_dim) :: (hidden_sizes ++ [1])) () ()) }

structure MLPActorCritic where
  pi : NNModule
  q1 : NNModule
  q2 : NNModule
  q1targ : NNModule
  q2targ : NNModule
deriving DecidableEq

/-- MLPActorCritic.__init__: build the actor and the four critics, then
immediately freeze the two target critics. -/
def MLPActorCritic.init (obs_dim act_dim : Nat) (hidden_sizes : List Nat) : MLPActorCritic :=
  { pi := actorParams obs_dim act_dim hidden_sizes
    q1 := qFunctionParams obs_dim act_dim hidden_sizes
    q2 := qFunctionParams obs_dim act_dim hidden_sizes
    q1targ := freeze_thaw_parameters (qFunctionParams obs_dim act_dim hidden_sizes)
    q2targ := freeze_thaw_parameters (qFunctionParams obs_dim act_dim hidden_sizes) }

theorem mlpParams_trainable (layers : List (MLPLayer α)) :
    ∀ p ∈ mlpParams layers, p.requires_grad = true := by
  intro p hp
  simp only [mlpParams, List.mem_flatten, List.mem_map] at hp
  obtain ⟨l, ⟨layer, hl, rfl⟩, hpl⟩ := hp
  cases layer with
  | linear din dout =>
      simp only [MLPLayer.paramsOf, nnLinearParams, List.mem_cons, List.mem_singleton,
        List.not_mem_nil, or_false] at hpl
      rcases hpl with rfl | rfl <;> rfl
  | activation a => simp [MLPLayer.paramsOf] at hpl

theorem freeze_thaw_parameters_params (m : NNModule) (freeze : Bool) :
    (freeze_thaw_parameters m freeze).params =
      m.params.map (fun p => { p with requires_grad := !freeze }) := by
  cases freeze <;> simp [freeze_thaw_parameters]

/-- Claim C8: immediately after ensemble construction every parameter of
q1targ and q2targ is non-trainable and every parameter of q1, q2 and the
actor is trainable; the freeze/thaw operation sets the requires_grad
flag of every parameter of the module to the requested value and changes
nothing else (shapes and order are preserved by the pointwise map). -/
theorem c8_target_networks_frozen (obs_dim act_dim : Nat) (hidden_sizes : List Nat) :
    (∀ p ∈ (MLPActorCritic.init obs_dim act_dim hidden_sizes).q1targ.params,
        p.requires_grad = false) ∧
    (∀ p ∈ (MLPActorCritic.init obs_dim act_dim hidden_sizes).q2targ.params,
        p.requires_grad = false) ∧
    (∀ p ∈ (MLPActorCritic.init obs_dim act_dim hidden_sizes).q1.params,
        p.requires_grad = true) ∧
    (∀ p ∈ (MLPActorCritic.init obs_dim act_dim hidden_sizes).q2.params,
        p.requires_grad = true) ∧
    (∀ p ∈ (MLPActorCritic.init obs_dim act_dim hidden_sizes).pi.params,
        p.requires_grad = true) ∧
    (∀ (m : NNModule) (freeze : Bool),
        (freeze_thaw_parameters m freeze).params =
          m.params.map (fun p => { p with requires_grad := !freeze })) := by
  refine ⟨?_, ?_, ?_, ?_, ?_, freeze_thaw_parameters_params⟩
  · intro p hp
    simp only [MLPActorCritic.init, freeze_thaw_parameters_params, List.mem_map] at hp
    obtain ⟨q, _, rfl⟩ := hp
    rfl
  · intro p hp
    simp only [MLPActorCritic.init, freeze_thaw_parameters_params, List.mem_map] at hp
    obtain ⟨q, _, rfl⟩ := hp
    rfl
  · intro p hp
    exact mlpParams_trainable _ p hp
  · intro p hp
    exact mlpParams_trainable _ p hp
  · intro p hp
    simp only [MLPActorCritic.init, actorParams, List.mem_append] at hp
    rcases hp with (hp | hp) | hp
    · exact mlpParams_trainable _ p hp
    · simp only [nnLinearParams, List.mem_cons, List.mem_singleton, List.not_mem_nil,
        or_false] at hp
      rcases hp with rfl | rfl <;> rfl
    · simp only [nnLinearParams, List.mem_cons, List.mem_singleton, List.not_mem_nil,
        or_false] at hp
      rcases hp with rfl | rfl <;> rfl

theorem c8_target_networks_frozen_witness :
    ((⟨[2, 2], false⟩ : Param) ∈ (MLPActorCritic.init 1 1 [2]).q1targ.params ∧
      (⟨[2, 2], false⟩ : Param).requires_grad = false) ∧
    ((⟨[2, 1], true⟩ : Param) ∈ (MLPActorCritic.init 1 1 [2]).pi.params ∧
      (⟨[2, 1], true⟩ : Param).requires_grad = true) :=
  ⟨⟨by decide, (c8_target_networks_frozen 1 1 [2]).1 ⟨[2, 2], false⟩ (by decide)⟩,
   ⟨by decide, (c8_target_networks_frozen 1 1 [2]).2.2.2.2.1 ⟨[2, 1], true⟩ (by decide)⟩⟩

/-! ## Squashed Gaussian actor (SquashedGaussianMLPActor.forward)

Tensor math is embedded over exact reals: a 1-D tensor is a list of
reals, a batch a list of rows. The Gaussian reparameterized sample
(rsample) is mu + std * eps with the standard-normal noise eps passed
in explicitly as a function of the component index (and of the batch
row index in the batched forward), so the forward pass is a pure
function of parameters, observation, flags and noise. -/

noncomputable def softplus (z : ℝ) : ℝ := Real.log (1 + Real.exp z)

noncomputable def dot (w x : List ℝ) : ℝ := (List.zipWith (fun a b => a * b) w x).sum

/-- nn.Linear as used in forward passes: weight rows and bias. -/
structure LinearLayer where
  weight : List (List ℝ)
  bias : List ℝ

noncomputable def LinearLayer.forward (L : LinearLayer) (x : List ℝ) : List ℝ :=
  List.zipWith (fun w b => dot w x + b) L.weight L.bias

/-- nn.Sequential of linear layers, each followed by its activation. -/
structure MLPNet where
  layers : List (LinearLayer × (ℝ → ℝ))

noncomputable def MLPNet.forward (net : MLPNet) (x : List ℝ) : List ℝ :=
  net.layers.foldl (fun h lp => (lp.1.forward h).map lp.2) x

def LOG_STD_MAX : ℝ := 2
def LOG_STD_MIN : ℝ := -20

/-- torch.clamp(x, lo, hi). -/
noncomputable def clamp (x lo hi : ℝ) : ℝ := min (max x lo) hi

/-- torch.distributions.Normal(mu, std).log_prob(x), one component. -/
noncomputable def normalLogProb (mu std x : ℝ) : ℝ :=
  -((x - mu) ^ 2) / (2 * std ^ 2) - Real.log std - Real.log (Real.sqrt (2 * Real.pi))

/-- One component of the tanh-squashing correction of line 90:
2*(log 2 - x - softplus(-2*x)). -/
noncomputable def tanhCorrection (x : ℝ) : ℝ :=
  2 * (Real.log 2 - x - softplus (-2 * x))

def squish_min : ℝ := -1
def squish_max : ℝ := 1

/-- Lines 103-106: tanh squashing followed by the affine rescale
((t - squish_min) / (squish_max - squish_min)) * (act_max - act_min) + act_min. -/
noncomputable def squashRescale (act_min act_max x : ℝ) : ℝ :=
  ((Real.tanh x - squish_min) / (squish_max - squish_min)) * (act_max - act_min) + act_min

def zipWith3 (f : α → β → γ → δ) : List α → List β → List γ → List δ
  | a :: as, b :: bs, c :: cs => f a b c :: zipWith3 f as bs cs
  | _, _, _ => []

structure SquashedGaussianMLPActor where
  net : MLPNet
  mu_layer : LinearLayer
  log_std_layer : LinearLayer
  act_min : ℝ
  act_max : ℝ

/-- Lines 77-81 of forward for one observation row: trunk, mu head,
clamped log_std head, std = exp(log_std), and the pre-squash action
(mu when deterministic, the reparameterized sample mu + std * eps
otherwise). Returns (mu, std, pi_action). -/
noncomputable def actorCore (A : SquashedGaussianMLPActor) (obs : List ℝ)
    (deterministic : Bool) (eps : Nat → ℝ) : List ℝ × List ℝ × List ℝ :=
  let net_out := A.net.forward obs
  let mu := A.mu_layer.forward net_out
  let log_std := (A.log_std_layer.forward net_out).map (fun v => clamp v LOG_STD_MIN LOG_STD_MAX)
  let std := log_std.map Real.exp
  let pi_action :=
    if deterministic then mu
    else (mu.zip std).mapIdx (fun i ms => ms.1 + ms.2 * eps i)
  (mu, std, pi_action)

/-- SquashedGaussianMLPActor.forward on a batched (2-D) observation.
On a 2-D tensor the axis=-1 sum of line 89 and the axis=1 sum of
line 90 both sum over the action dimension, one value per batch row,
so the log-probability branch always succeeds here. -/
noncomputable def SquashedGaussianMLPActor.forward (A : SquashedGaussianMLPActor)
    (obs : List (List ℝ)) (deterministic with_logprob : Bool) (eps : Nat → Nat → ℝ) :
    List (List ℝ) × Option (List ℝ) :=
  let rows := obs.mapIdx (fun r o => actorCore A o deterministic (eps r))
  let logprob_pi : Option (List ℝ) :=
    if with_logprob then
      some (rows.map (fun r =>
        (zipWith3 normalLogProb r.1 r.2.1 r.2.2).sum - (r.2.2.map tanhCorrection).sum))
    else none
  (rows.map (fun r => r.2.2.map (squashRescale A.act_min A.act_max)), logprob_pi)

/-- Summing a 1-D tensor: torch accepts only axes 0 and -1 and raises
an IndexError for any other axis. -/
noncomputable def sum_axis_vec (axis : Int) (v : List ℝ) : Option ℝ :=
  if axis = 0 ∨ axis = -1 then some v.sum else none

/-- SquashedGaussianMLPActor.forward on an unbatched (1-D) observation:
line 89 sums the base log-density over axis -1, which a 1-D tensor
admits, but line 90 sums the correction over axis 1, which a 1-D
tensor rejects, so the whole call raises (returns none) whenever
with_logprob is requested. -/
noncomputable def SquashedGaussianMLPActor.forward_unbatched (A : SquashedGaussianMLPActor)
    (obs : List ℝ) (deterministic with_logprob : Bool) (eps : Nat → ℝ) :
    Option (List ℝ × Option ℝ) :=
  let r := actorCore A obs deterministic eps
  let logprob_pi : Option (Option ℝ) :=
    if with_logprob then
      match sum_axis_vec (-1) (zipWith3 normalLogProb r.1 r.2.1 r.2.2) with
      | none => none
      | some base =>
          match sum_axis_vec 1 (r.2.2.map tanhCorrection) with
          | none => none
          | some corr => some (some (base - corr))
    else some none
  match logprob_pi with
  | none => none
  | some lp => some (r.2.2.map (squashRescale A.act_min A.act_max), lp)

theorem tanh_le_one (x : ℝ) : Real.tanh x ≤ 1 := by
  rw [Real.tanh_eq_sinh_div_cosh, div_le_one (Real.cosh_pos x)]
  have h := Real.cosh_sub_sinh x
  have hexp := Real.exp_pos (-x)
  linarith

theorem neg_one_le_tanh (x : ℝ) : -1 ≤ Real.tanh x := by
  rw [Real.tanh_eq_sinh_div_cosh, le_div_iff₀ (Real.cosh_pos x)]
  have h := Real.cosh_add_sinh x
  have hexp := Real.exp_pos x
  linarith

theorem squashRescale_bounds (amin amax x : ℝ) (h : amin ≤ amax) :
    amin ≤ squashRescale amin amax x ∧ squashRescale amin amax x ≤ amax := by
  have h1 := tanh_le_one x
  have h2 := neg_one_le_tanh x
  unfold squashRescale squish_min squish_max
  have hnn : 0 ≤ (Real.tanh x - (-1)) / (1 - (-1)) := by
    apply div_nonneg <;> linarith
  have hle : (Real.tanh x - (-1)) / (1 - (-1)) ≤ 1 := by
    rw [div_le_one (by norm_num : (0 : ℝ) < 1 - (-1))]
    linarith
  constructor
  · have key : 0 ≤ (Real.tanh x - (-1)) / (1 - (-1)) * (amax - amin) :=
      mul_nonneg hnn (by linarith)
    linarith
  · have key : 0 ≤ (1 - (Real.tanh x - (-1)) / (1 - (-1))) * (amax - amin) :=
      mul_nonneg (by linarith) (by linarith)
    nlinarith [key]

/-- Claim C2: for every observation batch, every parameter setting with
act_min <= act_max, both flags and any noise, every component of every
action row returned by the actor's forward pass lies in
[act_min, act_max]: the pre-squash action goes through tanh, whose
output is in (-1, 1), and is then affinely rescaled onto the range. -/
theorem c2_action_within_range (A : SquashedGaussianMLPActor) (obs : List (List ℝ))
    (deterministic with_logprob : Bool) (eps : Nat → Nat → ℝ)
    (h : A.act_min ≤ A.act_max) (row : List ℝ)
    (hrow : row ∈ (A.forward obs deterministic with_logprob eps).1)
    (y : ℝ) (hy : y ∈ row) :
    A.act_min ≤ y ∧ y ≤ A.act_max := by
  simp only [SquashedGaussianMLPActor.forward, List.mem_map] at hrow
  obtain ⟨r, _, rfl⟩ := hrow
  simp only [List.mem_map] at hy
  obtain ⟨t, _, rfl⟩ := hy
  exact squashRescale_bounds A.act_min A.act_max t h

/-- Tiny concrete actor for witnesses: no trunk layers, 1-D heads,
action range [-1, 1]. -/
noncomputable def c2actor : SquashedGaussianMLPActor :=
  { net := ⟨[]⟩
    mu_layer := ⟨[[1]], [0]⟩
    log_std_layer := ⟨[[1]], [0]⟩
    act_min := -1
    act_max := 1 }

theorem c2_action_within_range_witness :
    c2actor.act_min ≤ c2actor.act_max ∧
    (c2actor.act_min ≤ squashRescale c2actor.act_min c2actor.act_max (dot [1] [0] + 0) ∧
      squashRescale c2actor.act_min c2actor.act_max (dot [1] [0] + 0) ≤ c2actor.act_max) := by
  have hmin : c2actor.act_min ≤ c2actor.act_max := by norm_num [c2actor]
  have heval : (c2actor.forward [[0]] true false (fun _ _ => 0)).1 =
      [[squashRescale c2actor.act_min c2actor.act_max (dot [1] [0] + 0)]] := rfl
  refine ⟨hmin, ?_⟩
  refine c2_action_within_range c2actor [[0]] true false (fun _ _ => 0) hmin
    [squashRescale c2actor.act_min c2actor.act_max (dot [1] [0] + 0)] ?_
    (squashRescale c2actor.act_min c2actor.act_max (dot [1] [0] + 0)) ?_
  · rw [heval]
    exact List.mem_singleton.mpr rfl
  · exact List.mem_singleton.mpr rfl

/-- The base diagonal-Gaussian log-density of the pre-squash action,
summed over action dimensions. -/
noncomputable def gaussianLogDensitySum (mu std x : List ℝ) : ℝ :=
  (zipWith3 normalLogProb mu std x).sum

/-- The tanh-squashing correction summed over action dimensions. -/
noncomputable def tanhCorrectionSum (x : List ℝ) : ℝ :=
  (x.map tanhCorrection).sum

/-- Claim C3: with with_logprob=True the returned log-probability is,
per batch row, the base diagonal-Gaussian log-density of the pre-squash
action summed over action dimensions minus the summed correction
2*(ln 2 - x_i - softplus(-2 x_i)); with with_logprob=False no density
is computed and the returned log-probability is absent (None). -/
theorem c3_logprob_formula (A : SquashedGaussianMLPActor) (obs : List (List ℝ))
    (deterministic : Bool) (eps : Nat → Nat → ℝ) :
    (A.forward obs deterministic true eps).2 =
      some ((obs.mapIdx (fun r o => actorCore A o deterministic (eps r))).map
        (fun r => gaussianLogDensitySum r.1 r.2.1 r.2.2 - tanhCorrectionSum r.2.2)) ∧
    (A.forward obs deterministic false eps).2 = none :=
  ⟨rfl, rfl⟩

theorem actorCore_deterministic_noise_free (A : SquashedGaussianMLPActor) (obs : List ℝ)
    (eps1 eps2 : Nat → ℝ) :
    actorCore A obs true eps1 = actorCore A obs true eps2 := rfl

/-- Claim C9: with deterministic=True the forward pass is a function of
the observation and the parameters alone; the sampling noise never
enters the result (the pre-squash action is mu), so repeated calls with
the same observation and parameters return identical actions. -/
theorem c9_deterministic_reproducible (A : SquashedGaussianMLPActor) (obs : List (List ℝ))
    (with_logprob : Bool) (eps1 eps2 : Nat → Nat → ℝ) :
    A.forward obs true with_logprob eps1 = A.forward obs true with_logprob eps2 := by
  have h : (fun r o => actorCore A o true (eps1 r)) =
      (fun r (o : List ℝ) => actorCore A o true (eps2 r)) := by
    funext r o
    exact actorCore_deterministic_noise_free A o (eps1 r) (eps2 r)
  simp only [SquashedGaussianMLPActor.forward, h]

/-- Claim C10: on an unbatched 1-D observation the log-probability
branch fails (the correction sum over axis 1 is out of range for a 1-D
tensor) so forward with with_logprob=True raises, while the same call
with with_logprob=False succeeds and returns the squashed action. -/
theorem c10_unbatched_logprob_fails (A : SquashedGaussianMLPActor) (obs : List ℝ)
    (deterministic : Bool) (eps : Nat → ℝ) :
    A.forward_unbatched obs deterministic true eps = none ∧
    A.forward_unbatched obs deterministic false eps =
      some ((actorCore A obs deterministic eps).2.2.map
        (squashRescale A.act_min A.act_max), none) :=
  ⟨rfl, rfl⟩

end SAC
